import Mathlib

/-!
Verification of the movie-store services against their specification.

This file gives a shallow embedding of the Python sources of the repository:

* `src/services/shared/models.py`   — the `Movie` pydantic model and its validators;
* `src/services/shared/database.py` — the `MovieModel` table row (system timestamp columns);
* `src/services/shared/repositories.py` — `MovieRepository` (create / get / update /
  delete / search over the store);
* `src/services/api/cache.py`       — `CacheService` (get / set / delete / pattern sweep);
* `src/services/api/services.py`    — `MovieService` (cache-aside reads, write paths);
* `src/services/api/main.py`        — the `/health` aggregation;
* `src/services/data_processor/main.py` — the ingestion worker (per-message record
  processing, acknowledgement, counters, idempotent upsert).

The relational store is modelled as a list of rows, the Redis cache as an association
list of key / value / ttl entries, S3 as an association list from (bucket, key) to the
parsed object payload, and wall-clock time as an explicit `Nat` parameter (the
`datetime.utcnow` column defaults).  Database and cache I/O errors are outside the
model: every modelled run is a run in which the backends respond, while constraint
violations (duplicate primary key, duplicate `imdb_id`) are modelled explicitly since
the repository turns them into `None` results.
-/

namespace MovieStore

/-- `containsSub needle hay` holds when `needle` occurs contiguously inside `hay`. -/
def containsSub [BEq α] : List α → List α → Bool
  | needle, [] => needle.isEmpty
  | needle, hay@(_ :: rest) => needle.isPrefixOf hay || containsSub needle rest

/-- Python's `needle in hay` substring test, on the character lists of the strings. -/
def pyIn (needle hay : String) : Bool :=
  containsSub needle.data hay.data

/-- Python's `str.lower()` / SQL `LOWER`, character by character. -/
def strLower (s : String) : String :=
  String.mk (s.data.map Char.toLower)

/-- Lexicographic `≤` on character lists (the text ordering used by `ORDER BY`). -/
def charListLE : List Char → List Char → Bool
  | [], _ => true
  | _ :: _, [] => false
  | a :: as, b :: bs => if a = b then charListLE as bs else decide (a < b)

/-- Lexicographic `≤` on strings. -/
def strLE (a b : String) : Bool :=
  charListLE a.data b.data

/-- The `Genre` enum of `models.py`. -/
inductive Genre where
  | action | adventure | animation | biography | comedy | crime | documentary
  | drama | family | fantasy | history | horror | music | musical | mystery
  | romance | sciFi | sport | thriller | war | western
deriving DecidableEq, Repr

/-- The `Rating` (MPAA) enum of `models.py`. -/
inductive Rating where
  | g | pg | pg13 | r | nc17 | nr
deriving DecidableEq, Repr

/-- `CastMember` of `models.py`: `name`, `role`, optional `character`. -/
structure CastMember where
  name : String
  role : String
  character : Option String
deriving DecidableEq, Repr

/-- The `Movie` pydantic model of `models.py`.  Optional fields are `Option`s;
`cast` and `provider_metadata` admit an explicit `None` besides their defaults,
exactly as the `Optional[...]` annotations do.  `created_at` / `updated_at` are the
system timestamp fields (`Optional[datetime]`, modelled as `Option Nat`). -/
structure Movie where
  id : String
  title : String
  year : Int
  genre : List Genre
  cast : Option (List CastMember)
  director : Option String
  runtime_minutes : Option Int
  rating : Option Rating
  imdb_id : Option String
  budget_usd : Option Int
  box_office_usd : Option Int
  synopsis : Option String
  poster_url : Option String
  trailer_url : Option String
  provider_metadata : Option (List (String × String))
  created_at : Option Nat
  updated_at : Option Nat
deriving DecidableEq, Repr

/-- The non-system fields of a movie: everything a caller supplies, i.e. every field
except `created_at` and `updated_at`.  Both `Movie` and `MovieRow` project onto this. -/
structure MoviePayload where
  id : String
  title : String
  year : Int
  genre : List Genre
  cast : Option (List CastMember)
  director : Option String
  runtime_minutes : Option Int
  rating : Option Rating
  imdb_id : Option String
  budget_usd : Option Int
  box_office_usd : Option Int
  synopsis : Option String
  poster_url : Option String
  trailer_url : Option String
  provider_metadata : Option (List (String × String))
deriving DecidableEq, Repr

/-- `movie.dict(exclude={'created_at', 'updated_at'})`. -/
def Movie.payload (m : Movie) : MoviePayload :=
  { id := m.id, title := m.title, year := m.year, genre := m.genre, cast := m.cast
    director := m.director, runtime_minutes := m.runtime_minutes, rating := m.rating
    imdb_id := m.imdb_id, budget_usd := m.budget_usd, box_office_usd := m.box_office_usd
    synopsis := m.synopsis, poster_url := m.poster_url, trailer_url := m.trailer_url
    provider_metadata := m.provider_metadata }

/-- Bounded optional string (`Field(None, max_length=n)`). -/
def optStrMax (s : Option String) (n : Nat) : Bool :=
  match s with
  | none => true
  | some s => s.length ≤ n

/-- Bounded optional integer (`Field(None, ge=lo, le=hi)`). -/
def optIntRange (v : Option Int) (lo hi : Int) : Bool :=
  match v with
  | none => true
  | some v => lo ≤ v && v ≤ hi

/-- The `imdb_id` shape `^tt\d\x7b7,8\x7d$` of `models.py` (starts with `tt`,
then 7 or 8 digits). -/
def imdbShape (s : Option String) : Bool :=
  match s with
  | none => true
  | some s =>
    s.startsWith "tt" && (s.length == 9 || s.length == 10) &&
      (s.data.drop 2).all Char.isDigit

/-- Per-member bounds of `CastMember`: `name` and `role` 1–200 characters,
`character` at most 200. -/
def validCastMember (c : CastMember) : Bool :=
  1 ≤ c.name.length && c.name.length ≤ 200 &&
  1 ≤ c.role.length && c.role.length ≤ 200 &&
  optStrMax c.character 200

/-- The `unique_genres` validator: `len(v) != len(set(v))` rejects. -/
def uniqueGenres (gs : List Genre) : Bool :=
  gs.dedup.length == gs.length

/-- The `unique_cast_names` validator: lower-cased names must be pairwise distinct
(`if v:` makes the check vacuous for `None` and for the empty list). -/
def uniqueCastNames (cast : Option (List CastMember)) : Bool :=
  match cast with
  | none => true
  | some l => (l.map (fun c => strLower c.name)).dedup.length ==
      (l.map (fun c => strLower c.name)).length

/-- Full `Movie` validation of `models.py`: the `Field` bounds plus the two
uniqueness validators.  Construction of a `Movie(**data)` object succeeds exactly
when this holds; the system timestamp fields carry no constraint. -/
def validMovie (m : Movie) : Bool :=
  1 ≤ m.id.length && m.id.length ≤ 100 &&
  1 ≤ m.title.length && m.title.length ≤ 500 &&
  1888 ≤ m.year && m.year ≤ 2030 &&
  1 ≤ m.genre.length && m.genre.length ≤ 5 && uniqueGenres m.genre &&
  (match m.cast with
   | none => true
   | some l => l.length ≤ 100 && l.all validCastMember) &&
  uniqueCastNames m.cast &&
  optStrMax m.director 200 &&
  optIntRange m.runtime_minutes 1 600 &&
  imdbShape m.imdb_id &&
  optIntRange m.budget_usd 0 1000000000 &&
  optIntRange m.box_office_usd 0 10000000000 &&
  optStrMax m.synopsis 2000 &&
  optStrMax m.poster_url 500 &&
  optStrMax m.trailer_url 500

/-! ## Health check (`main.py`, `health_check`)

The endpoint builds `services = {database, cache, search}` where the database and
cache entries come from the respective `health_check()` calls (a raised exception
becomes `error: <msg>`), the search entry is the fixed string `postgresql-based`,
and the overall status is `healthy` exactly when the Python substring test
`"healthy" in s` holds for every entry. -/

/-- Outcome of a dependency's `health_check()` call: a returned boolean, or a
raised exception with its message. -/
inductive DepOutcome where
  | ok (b : Bool)
  | exn (msg : String)
deriving DecidableEq, Repr

/-- The string stored in the `services` mapping for a dependency outcome. -/
def serviceValue : DepOutcome → String
  | .ok true => "healthy"
  | .ok false => "unhealthy"
  | .exn msg => "error: " ++ msg

/-- The `services` values of the `/health` response, in insertion order:
database, cache, then the fixed search entry. -/
def healthServices (db cache : DepOutcome) : List String :=
  [serviceValue db, serviceValue cache, "postgresql-based"]

/-- The overall `/health` status:
`"healthy" if all("healthy" in s for s in services.values()) else "degraded"`. -/
def healthStatus (db cache : DepOutcome) : String :=
  if (healthServices db cache).all (fun s => pyIn "healthy" s) then "healthy" else "degraded"

/-! ## Record store (`database.py` `MovieModel`, `repositories.py` `MovieRepository`)

A table row carries the payload fields plus the two non-nullable system timestamp
columns (`default=datetime.utcnow`, `onupdate=datetime.utcnow`).  The store is the
list of rows; inserts append.  `scalar_one_or_none` yields a row only when exactly
one row has the id: zero rows is a miss, several raise, and the repository turns a
raised exception into `None` / `False`, so both fold to `none` here.  The `UNIQUE`
constraint on `imdb_id` makes an insert or update with a conflicting non-null
`imdb_id` raise at commit, which the repository again folds to `None`. -/

structure MovieRow where
  id : String
  title : String
  year : Int
  genre : List Genre
  cast : Option (List CastMember)
  director : Option String
  runtime_minutes : Option Int
  rating : Option Rating
  imdb_id : Option String
  budget_usd : Option Int
  box_office_usd : Option Int
  synopsis : Option String
  poster_url : Option String
  trailer_url : Option String
  provider_metadata : Option (List (String × String))
  created_at : Nat
  updated_at : Nat
deriving DecidableEq, Repr

/-- The non-system columns of a row. -/
def MovieRow.payload (r : MovieRow) : MoviePayload :=
  { id := r.id, title := r.title, year := r.year, genre := r.genre, cast := r.cast
    director := r.director, runtime_minutes := r.runtime_minutes, rating := r.rating
    imdb_id := r.imdb_id, budget_usd := r.budget_usd, box_office_usd := r.box_office_usd
    synopsis := r.synopsis, poster_url := r.poster_url, trailer_url := r.trailer_url
    provider_metadata := r.provider_metadata }

/-- The store. -/
abbrev DB := List MovieRow

/-- `MovieModel(**movie.dict(exclude={'created_at', 'updated_at'}))` at insert time:
the caller's timestamps are discarded and both columns take their
`datetime.utcnow` default. -/
def mkRow (m : Movie) (now : Nat) : MovieRow :=
  { id := m.id, title := m.title, year := m.year, genre := m.genre, cast := m.cast
    director := m.director, runtime_minutes := m.runtime_minutes, rating := m.rating
    imdb_id := m.imdb_id, budget_usd := m.budget_usd, box_office_usd := m.box_office_usd
    synopsis := m.synopsis, poster_url := m.poster_url, trailer_url := m.trailer_url
    provider_metadata := m.provider_metadata, created_at := now, updated_at := now }

/-- `update_movie`'s field copy: every field of `movie.dict(exclude={'id',
'created_at', 'updated_at'})` is written onto the row; `created_at` is kept and
`updated_at` takes its `onupdate=datetime.utcnow` value. -/
def updateRow (r : MovieRow) (m : Movie) (now : Nat) : MovieRow :=
  { id := r.id, title := m.title, year := m.year, genre := m.genre, cast := m.cast
    director := m.director, runtime_minutes := m.runtime_minutes, rating := m.rating
    imdb_id := m.imdb_id, budget_usd := m.budget_usd, box_office_usd := m.box_office_usd
    synopsis := m.synopsis, poster_url := m.poster_url, trailer_url := m.trailer_url
    provider_metadata := m.provider_metadata, created_at := r.created_at, updated_at := now }

/-- `_model_to_movie`: read a row back as a `Movie`; `db_movie.cast or []` and
`db_movie.provider_metadata or \x7b\x7d` replace a stored NULL (or empty) value by
the empty collection, and the system timestamps come back non-null. -/
def movieOfRow (r : MovieRow) : Movie :=
  { id := r.id, title := r.title, year := r.year, genre := r.genre
    cast := some (r.cast.getD []), director := r.director
    runtime_minutes := r.runtime_minutes, rating := r.rating, imdb_id := r.imdb_id
    budget_usd := r.budget_usd, box_office_usd := r.box_office_usd
    synopsis := r.synopsis, poster_url := r.poster_url, trailer_url := r.trailer_url
    provider_metadata := some (r.provider_metadata.getD [])
    created_at := some r.created_at, updated_at := some r.updated_at }

/-- `scalar_one_or_none` on `SELECT ... WHERE id = ...`: a row when exactly one
matches; zero rows (not found) and several rows (raises, swallowed by the caller)
both give `none`. -/
def scalarOne (db : DB) (id : String) : Option MovieRow :=
  match db.filter (fun r => r.id == id) with
  | [r] => some r
  | _ => none

/-- The `UNIQUE` index on `imdb_id`: writing `imdb` into the row with id `selfId`
conflicts when some other row already stores the same non-null `imdb_id`. -/
def imdbConflict (db : DB) (selfId : String) (imdb : Option String) : Bool :=
  match imdb with
  | none => false
  | some s => db.any (fun r => r.id != selfId && r.imdb_id == some s)

/-- `MovieRepository.create_movie`: insert a fresh row with store-set timestamps;
a primary-key or `imdb_id` uniqueness violation raises at commit and is swallowed
into `None`, leaving the store unchanged. -/
def create_movie (db : DB) (now : Nat) (m : Movie) : Option (Movie × DB) :=
  if db.any (fun r => r.id == m.id) || imdbConflict db m.id m.imdb_id then none
  else
    let row := mkRow m now
    some (movieOfRow row, db ++ [row])

/-- `MovieRepository.get_movie_by_id`. -/
def get_movie_by_id (db : DB) (id : String) : Option Movie :=
  (scalarOne db id).map movieOfRow

/-- `MovieRepository.update_movie`: look the row up by `movie.id`; absent gives
`None`; otherwise copy the payload fields onto it (commit raises on an `imdb_id`
conflict with another row, swallowed into `None` with the store unchanged). -/
def update_movie (db : DB) (now : Nat) (m : Movie) : Option (Movie × DB) :=
  match scalarOne db m.id with
  | none => none
  | some row =>
    if imdbConflict db m.id m.imdb_id then none
    else
      let row2 := updateRow row m now
      some (movieOfRow row2, db.map (fun r => if r.id == m.id then row2 else r))

/-- `MovieRepository.delete_movie`: `False` when the row is absent, else remove it. -/
def delete_movie (db : DB) (id : String) : Bool × DB :=
  match scalarOne db id with
  | none => (false, db)
  | some _ => (true, db.filter (fun r => !(r.id == id)))

/-! ## Search (`repositories.py` `search_movies`)

The service layer only places truthy values into the `filters` dict, so a filter is
either absent or a usable value.  `ILIKE '%x%'` is case-insensitive containment
(wildcard characters inside the filter value are not modelled — the source
interpolates the value unescaped).  The cast filter runs over the JSON text of the
`cast` column; a NULL column never matches an `ILIKE`.  The `ORDER BY year DESC,
title` sort is a merge sort; `COUNT` shares the same condition list and runs before
`OFFSET` / `LIMIT`. -/

/-- `column ILIKE '%pat%'`. -/
def ilike (hay pat : String) : Bool :=
  containsSub (strLower pat).data (strLower hay).data

/-- The filter dict built by `MovieService.search_movies`: only present (truthy)
query fields appear. -/
structure SearchFilters where
  title : Option String := none
  year : Option Int := none
  genre : Option (List Genre) := none
  director : Option String := none
  rating : Option Rating := none
  cast : Option String := none
deriving Repr

/-- JSON text of one cast member dict, in pydantic field order. -/
def castMemberJson (c : CastMember) : String :=
  "\x7b\"name\": \"" ++ c.name ++ "\", \"role\": \"" ++ c.role ++ "\", \"character\": " ++
    (match c.character with
     | none => "null"
     | some s => "\"" ++ s ++ "\"") ++ "\x7d"

/-- JSON text of the stored cast list (`MovieModel.cast.astext`). -/
def castJson (l : List CastMember) : String :=
  "[" ++ String.intercalate ", " (l.map castMemberJson) ++ "]"

/-- The conjunction of the `conditions` list of `search_movies`, evaluated on one
row.  A NULL `director` or `cast` column fails the corresponding `ILIKE`. -/
def matchesFilters (f : SearchFilters) (r : MovieRow) : Bool :=
  (match f.title with
   | none => true
   | some t => ilike r.title t) &&
  (match f.year with
   | none => true
   | some y => r.year == y) &&
  (match f.genre with
   | none => true
   | some gs => r.genre.any (fun g => gs.contains g)) &&
  (match f.director with
   | none => true
   | some d =>
     match r.director with
     | none => false
     | some rd => ilike rd d) &&
  (match f.rating with
   | none => true
   | some rt => r.rating == some rt) &&
  (match f.cast with
   | none => true
   | some c =>
     match r.cast with
     | none => false
     | some l => ilike (castJson l) c)

/-- `ORDER BY year DESC, title ASC` as a boolean preorder on rows:
`searchLE a b` holds when `a` may precede `b`. -/
def searchLE (a b : MovieRow) : Bool :=
  b.year < a.year || (a.year == b.year && strLE a.title b.title)

/-- `MovieRepository.search_movies`: filter, count before pagination with the same
conditions, sort by `year DESC, title`, then `OFFSET` / `LIMIT`, and map rows back
through `_model_to_movie`. -/
def search_movies (db : DB) (f : SearchFilters) (limit offset : Nat) : List Movie × Nat :=
  let filtered := db.filter (matchesFilters f)
  let total := filtered.length
  let sorted := filtered.mergeSort searchLE
  let page := (sorted.drop offset).take limit
  (page.map movieOfRow, total)

/-! ## Cache (`cache.py` `CacheService`) -/

/-- A value stored in the cache: the JSON dict of a single movie
(`movie.dict()`) or of a search response envelope. -/
inductive CacheVal where
  | movieVal (m : Movie)
  | searchVal (data : List Movie) (total : Nat)
deriving DecidableEq, Repr

/-- The cache: key, value and effective ttl of each live entry. -/
abbrev Cache := List (String × CacheVal × Nat)

/-- The configured default ttl (`REDIS_TTL`, default 3600 seconds). -/
def defaultTTL : Nat := 3600

/-- `CacheService.cache_key`: `f"\x7bprefix\x7d:" + ":".join(str(arg) ...)`. -/
def cache_key (pre : String) (args : List String) : String :=
  pre ++ ":" ++ String.intercalate ":" args

/-- `CacheService.get`. -/
def cacheGet (c : Cache) (k : String) : Option CacheVal :=
  match c.find? (fun e => e.1 == k) with
  | some e => some e.2.1
  | none => none

/-- `CacheService.set`: `ttl = ttl or self.config.ttl_seconds`, then `SETEX`
(overwrite the key, fresh ttl). -/
def cacheSet (c : Cache) (k : String) (v : CacheVal) (ttl : Option Nat) : Cache :=
  (c.filter (fun e => !(e.1 == k))) ++ [(k, v, ttl.getD defaultTTL)]

/-- `CacheService.delete`. -/
def cacheDelete (c : Cache) (k : String) : Cache :=
  c.filter (fun e => !(e.1 == k))

/-- Redis `KEYS pattern` glob matching, for the patterns this code uses (a literal
key, or a literal ending in a single trailing `*`). -/
def globMatch (pat key : String) : Bool :=
  match pat.data.reverse with
  | '*' :: rest => rest.reverse.isPrefixOf key.data
  | _ => pat == key

/-- `CacheService.invalidate_pattern`: delete every key matching the pattern. -/
def invalidatePattern (c : Cache) (pat : String) : Cache :=
  c.filter (fun e => !(globMatch pat e.1))

/-! ## Movie service (`services.py` `MovieService`) -/

/-- The single-record cache key `movie:\x7bid\x7d`. -/
def movieKey (id : String) : String :=
  cache_key "movie" [id]

/-- `Movie(**cached)` on a cached dict: succeeds on a movie-shaped value.  (A
search-envelope dict under a movie key would raise in the source; movie keys only
ever receive movie dicts.) -/
def deserializeMovie : CacheVal → Option Movie
  | .movieVal m => some m
  | _ => none

/-- `MovieService.get_movie_by_id`: try the cache under `movie:\x7bid\x7d`; on a
hit return the deserialized value; on a miss fetch from the repository, cache a
found record with the default ttl (no override), and never cache a miss. -/
def serviceGetMovieById (db : DB) (c : Cache) (id : String) : Option Movie × Cache :=
  match cacheGet c (movieKey id) with
  | some v => (deserializeMovie v, c)
  | none =>
    match get_movie_by_id db id with
    | some m => (some m, cacheSet c (movieKey id) (.movieVal m) none)
    | none => (none, c)

/-- `MovieService.create_movie`: repository first; on success `set` the
single-record key to the created record and sweep `search:*`. -/
def serviceCreateMovie (db : DB) (c : Cache) (now : Nat) (m : Movie) :
    Option Movie × DB × Cache :=
  match create_movie db now m with
  | none => (none, db, c)
  | some (created, db2) =>
    let c1 := cacheSet c (movieKey created.id) (.movieVal created) none
    let c2 := invalidatePattern c1 "search:*"
    (some created, db2, c2)

/-- `MovieService.update_movie`: repository first; on success `delete` the
single-record key and sweep `search:*`. -/
def serviceUpdateMovie (db : DB) (c : Cache) (now : Nat) (m : Movie) :
    Option Movie × DB × Cache :=
  match update_movie db now m with
  | none => (none, db, c)
  | some (updated, db2) =>
    let c1 := cacheDelete c (movieKey updated.id)
    let c2 := invalidatePattern c1 "search:*"
    (some updated, db2, c2)

/-- `MovieService.delete_movie`: repository first; on success `delete` the
single-record key and sweep `search:*`. -/
def serviceDeleteMovie (db : DB) (c : Cache) (id : String) :
    Bool × DB × Cache :=
  match delete_movie db id with
  | (false, db2) => (false, db2, c)
  | (true, db2) =>
    let c1 := cacheDelete c (movieKey id)
    let c2 := invalidatePattern c1 "search:*"
    (true, db2, c2)

/-! ## Ingestion worker (`data_processor/main.py` `DataProcessor`)

S3 is an association list from (bucket, key) to the object's parsed content: an
absent entry is a download failure (`ClientError`), `some none` an object whose
body is not valid JSON, and `some (some m)` a JSON object with movie-shaped
fields, still subject to `Movie(**dict)` validation.  A message is its extracted
`Records` list (the body-level envelope parsing is upstream of the record
accounting modelled here); record processing within one message is sequential and
threads the store. -/

/-- The `s3` part of one notification record: `s3.bucket.name`, `s3.object.key`. -/
structure S3Ref where
  bucket : String
  key : String
deriving DecidableEq, Repr

/-- One entry of the extracted `Records` list. -/
structure SqsRecord where
  eventSource : String
  s3 : S3Ref
deriving DecidableEq, Repr

/-- The object store contents. -/
abbrev S3World := List ((String × String) × Option Movie)

/-- `s3_client.get_object` plus `json.loads`: `none` is a failed download,
`some none` a JSON decode error. -/
def download (w : S3World) (bucket key : String) : Option (Option Movie) :=
  match w.find? (fun e => e.1 == (bucket, key)) with
  | some e => some e.2
  | none => none

/-- `object_key.split('/')[1] if '/' in object_key else 'unknown'` — the provider
label derived from the object's storage path (logged and passed on, not stored). -/
def deriveProvider (key : String) : String :=
  if pyIn "/" key then ((key.splitOn "/").getD 1 "unknown") else "unknown"

/-- The worker's monotone counters. -/
structure Counters where
  processed_count : Nat
  error_count : Nat
deriving DecidableEq, Repr

/-- `DataProcessor._process_movie_data`: look the id up; update when found, create
when absent; `True` exactly when the write went through. -/
def processMovieData (db : DB) (now : Nat) (m : Movie) : Bool × DB :=
  match get_movie_by_id db m.id with
  | some _ =>
    match update_movie db now m with
    | some (_, db2) => (true, db2)
    | none => (false, db)
  | none =>
    match create_movie db now m with
    | some (_, db2) => (true, db2)
    | none => (false, db)

/-- `DataProcessor._process_s3_file`: download, JSON-parse, validate against the
`Movie` schema, then upsert; any failure fails this record only and leaves the
store as it was. -/
def processS3File (w : S3World) (db : DB) (now : Nat) (bucket key : String) : Bool × DB :=
  match download w bucket key with
  | none => (false, db)
  | some none => (false, db)
  | some (some m) =>
    if validMovie m then processMovieData db now m else (false, db)

/-- The per-record success flags of one message, in record order: a record whose
`eventSource` is not `aws:s3` is skipped by the loop (never a success), any other
record succeeds exactly when `_process_s3_file` returned `True` against the store
state it ran on. -/
def recordOutcomes (w : S3World) (now : Nat) : List SqsRecord → DB → List Bool
  | [], _ => []
  | r :: rs, db =>
    if r.eventSource == "aws:s3" then
      let res := processS3File w db now r.s3.bucket r.s3.key
      res.1 :: recordOutcomes w now rs res.2
    else
      false :: recordOutcomes w now rs db

/-- The record loop of `_process_single_message`: `success_count` accumulation and
the store threading. -/
def processRecords (w : S3World) (now : Nat) : List SqsRecord → DB → Nat → Nat × DB
  | [], db, acc => (acc, db)
  | r :: rs, db, acc =>
    if r.eventSource == "aws:s3" then
      let res := processS3File w db now r.s3.bucket r.s3.key
      processRecords w now rs res.2 (if res.1 then acc + 1 else acc)
    else
      processRecords w now rs db acc

/-- Result of processing one message. -/
structure MsgOutcome where
  /-- whether `delete_message` ran, i.e. the message left the queue; this is
  also the task's return value. -/
  acked : Bool
  db : DB
  counters : Counters
deriving Repr

/-- `DataProcessor._process_single_message` on a message whose body yielded the
given `Records` list: run every record, then acknowledge — deleting the message
and adding `success_count` to `processed_count` — exactly when
`success_count == total_records`; otherwise leave the message on the queue and add
the shortfall to `error_count`. -/
def processSingleMessage (w : S3World) (db : DB) (now : Nat)
    (records : List SqsRecord) (st : Counters) : MsgOutcome :=
  let res := processRecords w now records db 0
  if res.1 == records.length then
    { acked := true, db := res.2
      counters := { processed_count := st.processed_count + res.1
                    error_count := st.error_count } }
  else
    { acked := false, db := res.2
      counters := { processed_count := st.processed_count
                    error_count := st.error_count + (records.length - res.1) } }

/-! ## Test fixtures -/

/-- Shared test fixture: a concrete valid movie payload. -/
def mW : Movie :=
  { id := "m1", title := "Alpha", year := 1994, genre := [.drama], cast := some []
    director := none, runtime_minutes := none, rating := none, imdb_id := none
    budget_usd := none, box_office_usd := none, synopsis := none, poster_url := none
    trailer_url := none, provider_metadata := some [], created_at := none
    updated_at := none }

/-- Shared test fixture: an object store holding `mW` under `("b", "k")`. -/
def wW : S3World := [(("b", "k"), some mW)]

/-- Shared test fixture: an `aws:s3` notification record for `("b", "k")`. -/
def recS3 : SqsRecord := { eventSource := "aws:s3", s3 := { bucket := "b", key := "k" } }

/-- Shared test fixture: a record whose source is not `aws:s3`. -/
def recSns : SqsRecord := { eventSource := "aws:sns", s3 := { bucket := "b", key := "k" } }

/-- Shared test fixture: the record created from `mW` at time 0. -/
def createdW : Movie := movieOfRow (mkRow mW 0)

/-- Shared test fixture: a store holding just the row created from `mW` at time 0. -/
def dbW : DB := [mkRow mW 0]

/-- Shared test fixture: a cache holding `mW` under its single-record key. -/
def cHit : Cache := [("movie:m1", CacheVal.movieVal mW, 7)]

/-- Shared test fixture: a cache holding one search-namespace entry. -/
def cSearch : Cache := [("search:a", CacheVal.searchVal [] 0, 300)]

/-- Shared test fixture: a valid payload with an explicit `None` cast and
`None` provider metadata. -/
def mNone : Movie := { mW with cast := none, provider_metadata := none }

/-- The normalization performed by the read path `_model_to_movie`: a `None` cast
comes back as the empty list and a `None` provider metadata as the empty mapping. -/
def normalizeMovie (m : Movie) : Movie :=
  { m with cast := some (m.cast.getD [])
           provider_metadata := some (m.provider_metadata.getD []) }

/-- Shared test fixture: a second write for the same id as `mW`. -/
def mW2 : Movie := { mW with title := "Beta" }

/-- Shared test fixture: a second row with year 1994. -/
def rowB : MovieRow := mkRow { mW with id := "m2", title := "Beta" } 0

/-- Shared test fixture: a store with exactly two 1994 titles. -/
def dbY : DB := [mkRow mW 0, rowB]

/-- Shared test fixture: the filter dict of `year=1994`. -/
def fY : SearchFilters := { year := some 1994 }

/-- Shared test fixture: `mW` with a duplicated genre. -/
def mDup : Movie := { mW with genre := [.drama, .drama] }

/-- Shared test fixture: `mW` with two cast names equal ignoring case. -/
def mCastDup : Movie :=
  { mW with cast := some [{ name := "Tom", role := "actor", character := none },
                          { name := "tom", role := "actor", character := none }] }

/-- Shared test fixture: an object store holding `mDup`. -/
def wDup : S3World := [(("b", "k2"), some mDup)]

/-! ## Theorems -/

/-- C1: for every `GET /health` response, the overall status field is `"healthy"`
if and only if every reported dependency — database, cache, and the stub
search-subsystem flag — reports healthy, and `"degraded"` otherwise.  (In this
code the stub search entry is the fixed string `postgresql-based`, which never
reports healthy, so both sides of the equivalence are false in every state and
the endpoint always answers `"degraded"`.) -/
theorem health_status_healthy_iff_every_dependency_healthy (db cache : DepOutcome) :
    (healthStatus db cache = "healthy" ↔
      (healthServices db cache).all (fun s => s == "healthy") = true) ∧
    healthStatus db cache = "degraded" := by
  have h3 : pyIn "healthy" "postgresql-based" = false := by decide
  have hdeg : healthStatus db cache = "degraded" := by
    unfold healthStatus
    rw [if_neg]
    simp only [healthServices, List.all_cons, List.all_nil, Bool.and_true, h3,
      Bool.and_false]
    exact fun h => absurd h (by simp)
  refine ⟨⟨fun h => absurd (hdeg ▸ h) (by decide), fun h => ?_⟩, hdeg⟩
  exfalso
  simp only [healthServices, List.all_cons, List.all_nil, Bool.and_true,
    Bool.and_eq_true] at h
  exact absurd h.2.2 (by decide)

lemma recordOutcomes_length (w : S3World) (now : Nat) :
    ∀ (rs : List SqsRecord) (db : DB), (recordOutcomes w now rs db).length = rs.length
  | [], _ => rfl
  | r :: rs, db => by
    cases h : r.eventSource == "aws:s3" <;>
      simp [recordOutcomes, h, recordOutcomes_length w now rs]

lemma processRecords_fst (w : S3World) (now : Nat) :
    ∀ (rs : List SqsRecord) (db : DB) (acc : Nat),
      (processRecords w now rs db acc).1 = acc + (recordOutcomes w now rs db).count true
  | [], db, acc => by simp [processRecords, recordOutcomes]
  | r :: rs, db, acc => by
    cases h : r.eventSource == "aws:s3"
    · simp [processRecords, recordOutcomes, h, processRecords_fst w now rs,
        List.count_cons]
    · cases hb : (processS3File w db now r.s3.bucket r.s3.key).1
      · simp [processRecords, recordOutcomes, h, hb, processRecords_fst w now rs,
          List.count_cons]
      · simp [processRecords, recordOutcomes, h, hb, processRecords_fst w now rs,
          List.count_cons]
        omega

lemma bool_count_true_add_false (l : List Bool) :
    l.count true + l.count false = l.length := by
  induction l with
  | nil => rfl
  | cons b l ih => cases b <;> (simp [List.count_cons]; try omega)

lemma all_id_iff_count_true (l : List Bool) :
    (l.all (fun b => b) = true) ↔ l.count true = l.length := by
  induction l with
  | nil => simp
  | cons b l ih =>
    have hle := List.count_le_length true l
    cases b <;> (simp [List.count_cons, ih]; try omega)

/-- C2: for every queue message processed by the ingestion worker, the message is
deleted from the queue exactly when every record inside it succeeded; on
acknowledgement `processed_count` grows by the number of records that succeeded
and `error_count` is untouched; on partial or total failure the message stays on
the queue, `processed_count` is untouched, and `error_count` grows by the number
of failed records. -/
theorem message_ack_and_counter_accounting (w : S3World) (db : DB) (now : Nat)
    (records : List SqsRecord) (st : Counters) :
    ((processSingleMessage w db now records st).acked = true ↔
      (recordOutcomes w now records db).all (fun b => b) = true) ∧
    (processSingleMessage w db now records st).counters.processed_count =
      (if (processSingleMessage w db now records st).acked then
        st.processed_count + (recordOutcomes w now records db).count true
      else st.processed_count) ∧
    (processSingleMessage w db now records st).counters.error_count =
      (if (processSingleMessage w db now records st).acked then st.error_count
      else st.error_count + (recordOutcomes w now records db).count false) := by
  have hfst := processRecords_fst w now records db 0
  rw [Nat.zero_add] at hfst
  have hlen := recordOutcomes_length w now records db
  have hsplit := bool_count_true_add_false (recordOutcomes w now records db)
  by_cases hq : (processRecords w now records db 0).1 = records.length
  · have hmsg : processSingleMessage w db now records st =
        { acked := true, db := (processRecords w now records db 0).2
          counters := { processed_count :=
                          st.processed_count + (processRecords w now records db 0).1
                        error_count := st.error_count } } := by
      unfold processSingleMessage
      rw [if_pos (by simpa using hq)]
    rw [hmsg]
    have heq : (recordOutcomes w now records db).count true =
        (recordOutcomes w now records db).length := by omega
    refine ⟨iff_of_true rfl ((all_id_iff_count_true _).mpr heq), ?_, by simp⟩
    simp
    omega
  · have hmsg : processSingleMessage w db now records st =
        { acked := false, db := (processRecords w now records db 0).2
          counters := { processed_count := st.processed_count
                        error_count := st.error_count +
                          (records.length - (processRecords w now records db 0).1) } } := by
      unfold processSingleMessage
      rw [if_neg (by simpa using hq)]
    rw [hmsg]
    refine ⟨?_, by simp, ?_⟩
    · simp only [Bool.false_eq_true, false_iff, all_id_iff_count_true]
      omega
    · simp only [Bool.false_eq_true, if_false]
      omega

lemma false_mem_recordOutcomes (w : S3World) (now : Nat) :
    ∀ (rs : List SqsRecord) (db : DB) (r : SqsRecord), r ∈ rs → r.eventSource ≠ "aws:s3" →
      false ∈ recordOutcomes w now rs db
  | r0 :: rs, db, r, hmem, hsrc => by
    rcases List.mem_cons.mp hmem with h | h
    · subst h
      have hsrc2 : (r.eventSource == "aws:s3") = false := by simpa using hsrc
      simp [recordOutcomes, hsrc2]
    · cases he : r0.eventSource == "aws:s3"
      · simp [recordOutcomes, he]
      · simpa [recordOutcomes, he] using
          Or.inr (false_mem_recordOutcomes w now rs _ r h hsrc)

lemma count_true_ne_of_false_mem {l : List Bool} (h : false ∈ l) :
    l.count true ≠ l.length := by
  intro hc
  have hall := (all_id_iff_count_true l).mpr hc
  rw [List.all_eq_true] at hall
  exact absurd (hall false h) (by decide)

/-- C5: a message whose extracted `Records` list contains at least one record with
`eventSource` different from `aws:s3` is never acknowledged, and `processed_count`
does not grow for it, whatever the other records do: a skipped record counts
toward the record total but can never count as a success, so
`success_count == total_records` is unsatisfiable. -/
theorem skipped_record_blocks_ack (w : S3World) (db : DB) (now : Nat)
    (records : List SqsRecord) (st : Counters) (r : SqsRecord)
    (hmem : r ∈ records) (hsrc : r.eventSource ≠ "aws:s3") :
    (processSingleMessage w db now records st).acked = false ∧
    (processSingleMessage w db now records st).counters.processed_count =
      st.processed_count := by
  have hfst := processRecords_fst w now records db 0
  rw [Nat.zero_add] at hfst
  have hlen := recordOutcomes_length w now records db
  have hne := count_true_ne_of_false_mem (false_mem_recordOutcomes w now records db r hmem hsrc)
  have hq : (processRecords w now records db 0).1 ≠ records.length := by omega
  unfold processSingleMessage
  rw [if_neg (by simpa using hq)]
  exact ⟨rfl, rfl⟩

/-- Witness for C5: one successfully ingestible `aws:s3` record next to one
`aws:sns` record still blocks acknowledgement and leaves `processed_count` at 3. -/
theorem skipped_record_blocks_ack_witness :
    (processSingleMessage wW [] 0 [recS3, recSns]
        { processed_count := 3, error_count := 0 }).acked = false ∧
    (processSingleMessage wW [] 0 [recS3, recSns]
        { processed_count := 3, error_count := 0 }).counters.processed_count = 3 :=
  skipped_record_blocks_ack wW [] 0 [recS3, recSns]
    { processed_count := 3, error_count := 0 } recSns (by decide) (by decide)

lemma str_data_append (s t : String) : (s ++ t).data = s.data ++ t.data := by
  cases s; cases t; rfl

lemma cacheGet_set_self (c : Cache) (k : String) (v : CacheVal) (ttl : Option Nat) :
    cacheGet (cacheSet c k v ttl) k = some v := by
  unfold cacheGet cacheSet
  rw [List.find?_append]
  have h1 : (c.filter (fun e => !(e.1 == k))).find? (fun e => e.1 == k) = none := by
    rw [List.find?_eq_none]
    intro x hx
    simpa using (List.mem_filter.mp hx).2
  rw [h1]
  simp

lemma cacheGet_delete_self (c : Cache) (k : String) :
    cacheGet (cacheDelete c k) k = none := by
  unfold cacheGet cacheDelete
  have h1 : (c.filter (fun e => !(e.1 == k))).find? (fun e => e.1 == k) = none := by
    rw [List.find?_eq_none]
    intro x hx
    simpa using (List.mem_filter.mp hx).2
  rw [h1]

lemma cacheGet_invalidate_of_match (c : Cache) (pat k : String)
    (h : globMatch pat k = true) :
    cacheGet (invalidatePattern c pat) k = none := by
  unfold cacheGet invalidatePattern
  have h1 : (c.filter (fun e => !(globMatch pat e.1))).find? (fun e => e.1 == k) = none := by
    rw [List.find?_eq_none]
    intro x hx hk
    have h2 := (List.mem_filter.mp hx).2
    have h3 : x.1 = k := by simpa using hk
    rw [h3, h] at h2
    exact absurd h2 (by decide)
  rw [h1]

lemma cacheGet_invalidate_of_not_match (c : Cache) (pat k : String)
    (h : globMatch pat k = false) :
    cacheGet (invalidatePattern c pat) k = cacheGet c k := by
  unfold cacheGet invalidatePattern
  induction c with
  | nil => rfl
  | cons e c ih =>
    by_cases he : e.1 = k
    · have hg : globMatch pat e.1 = false := by rw [he, h]
      simp [List.filter_cons, List.find?_cons, hg, he, h]
    · have he2 : (e.1 == k) = false := by simpa using he
      cases hg : globMatch pat e.1
      · simpa [List.filter_cons, List.find?_cons, hg, he2] using ih
      · simpa [List.filter_cons, List.find?_cons, hg, he2] using ih

lemma movieKey_eq (id : String) : movieKey id = "movie:" ++ id := by
  unfold movieKey cache_key
  have h : String.intercalate ":" [id] = id := rfl
  rw [h]
  rfl

lemma globMatch_search_movieKey (id : String) :
    globMatch "search:*" (movieKey id) = false := by
  rw [movieKey_eq]
  show List.isPrefixOf "search:".data ("movie:" ++ id).data = false
  rw [str_data_append]
  rfl

/-- C10: `getMovieById(id)` checks the cache under `movie:\x7bid\x7d`; on a hit it
returns the deserialized cached value with the cache untouched; on a miss it
fetches from the repository and, when found, populates the cache with the default
ttl (no per-key override) before returning; when not found it returns absent
without caching the negative result. -/
theorem get_movie_cache_aside (db : DB) (c : Cache) (id : String) :
    (∀ m, cacheGet c (movieKey id) = some (CacheVal.movieVal m) →
      serviceGetMovieById db c id = (some m, c)) ∧
    (cacheGet c (movieKey id) = none →
      (∀ m, get_movie_by_id db id = some m →
        serviceGetMovieById db c id =
          (some m, cacheSet c (movieKey id) (CacheVal.movieVal m) none) ∧
        cacheGet (cacheSet c (movieKey id) (CacheVal.movieVal m) none) (movieKey id) =
          some (CacheVal.movieVal m) ∧
        cacheSet c (movieKey id) (CacheVal.movieVal m) none =
          c.filter (fun e => !(e.1 == movieKey id)) ++
            [(movieKey id, CacheVal.movieVal m, defaultTTL)]) ∧
      (get_movie_by_id db id = none → serviceGetMovieById db c id = (none, c))) := by
  constructor
  · intro m hm
    unfold serviceGetMovieById
    rw [hm]
    rfl
  · intro hnone
    constructor
    · intro m hm
      refine ⟨?_, cacheGet_set_self c (movieKey id) (CacheVal.movieVal m) none, rfl⟩
      unfold serviceGetMovieById
      rw [hnone, hm]
    · intro hm
      unfold serviceGetMovieById
      rw [hnone, hm]

/-- Witness for C10: a cache hit is served from the cache, a miss on a populated
store fills the cache, and a miss on an empty store caches nothing. -/
theorem get_movie_cache_aside_witness :
    serviceGetMovieById [] cHit "m1" = (some mW, cHit) ∧
    serviceGetMovieById dbW [] "m1" =
      (some createdW, cacheSet [] (movieKey "m1") (CacheVal.movieVal createdW) none) ∧
    serviceGetMovieById [] [] "m1" = (none, []) :=
  ⟨(get_movie_cache_aside [] cHit "m1").1 mW rfl,
   (((get_movie_cache_aside dbW [] "m1").2 rfl).1 createdW rfl).1,
   ((get_movie_cache_aside [] [] "m1").2 rfl).2 rfl⟩

/-- C3 counterexample: after a successful `createMovie` the single-record cache
key is NOT deleted — the service `set`s it to the created record's value, so the
key is populated, refuting ``the single-record cache key has been invalidated
(deleted, not set to a new value) ... on every write path`` on the create path. -/
theorem service_create_sets_single_record_key :
    (serviceCreateMovie [] [] 0 mW).1 = some createdW ∧
    cacheGet (serviceCreateMovie [] [] 0 mW).2.2 (movieKey "m1") =
      some (CacheVal.movieVal createdW) := by
  constructor <;> rfl

/-- C3 amended: after every successful `updateMovie` or `deleteMovie` the
single-record cache key is deleted and every key in the search-result namespace
is removed by the pattern sweep; after a successful `createMovie` the search
namespace is swept as well, but the single-record key is populated with the
created record (set, not deleted). -/
theorem write_paths_invalidate_cache (db : DB) (c : Cache) (now : Nat)
    (m : Movie) (id : String) :
    (∀ created db2 c2, serviceCreateMovie db c now m = (some created, db2, c2) →
      cacheGet c2 (movieKey created.id) = some (CacheVal.movieVal created) ∧
      ∀ k, globMatch "search:*" k = true → cacheGet c2 k = none) ∧
    (∀ updated db2 c2, serviceUpdateMovie db c now m = (some updated, db2, c2) →
      cacheGet c2 (movieKey updated.id) = none ∧
      ∀ k, globMatch "search:*" k = true → cacheGet c2 k = none) ∧
    (∀ db2 c2, serviceDeleteMovie db c id = (true, db2, c2) →
      cacheGet c2 (movieKey id) = none ∧
      ∀ k, globMatch "search:*" k = true → cacheGet c2 k = none) := by
  refine ⟨?_, ?_, ?_⟩
  · intro created db2 c2 h
    unfold serviceCreateMovie at h
    cases hc : create_movie db now m with
    | none => rw [hc] at h; simp at h
    | some p =>
      obtain ⟨cr, dbr⟩ := p
      rw [hc] at h
      have h1 : cr = created := Option.some.inj (congrArg Prod.fst h)
      subst h1
      have h3 := congrArg (fun x => x.2.2) h
      simp only at h3
      rw [← h3]
      refine ⟨?_, fun k hk => cacheGet_invalidate_of_match _ _ _ hk⟩
      rw [cacheGet_invalidate_of_not_match _ _ _ (globMatch_search_movieKey cr.id)]
      exact cacheGet_set_self ..
  · intro updated db2 c2 h
    unfold serviceUpdateMovie at h
    cases hc : update_movie db now m with
    | none => rw [hc] at h; simp at h
    | some p =>
      obtain ⟨cr, dbr⟩ := p
      rw [hc] at h
      have h1 : cr = updated := Option.some.inj (congrArg Prod.fst h)
      subst h1
      have h3 := congrArg (fun x => x.2.2) h
      simp only at h3
      rw [← h3]
      refine ⟨?_, fun k hk => cacheGet_invalidate_of_match _ _ _ hk⟩
      rw [cacheGet_invalidate_of_not_match _ _ _ (globMatch_search_movieKey cr.id)]
      exact cacheGet_delete_self ..
  · intro db2 c2 h
    unfold serviceDeleteMovie at h
    cases hc : delete_movie db id with
    | mk ok dbr =>
      rw [hc] at h
      cases ok with
      | false => simp at h
      | true =>
        have h3 := congrArg (fun x => x.2.2) h
        simp only at h3
        rw [← h3]
        refine ⟨?_, fun k hk => cacheGet_invalidate_of_match _ _ _ hk⟩
        rw [cacheGet_invalidate_of_not_match _ _ _ (globMatch_search_movieKey id)]
        exact cacheGet_delete_self ..

/-- Witness for C3: the create, update and delete service paths at concrete
stores and caches. -/
theorem write_paths_invalidate_cache_witness :
    cacheGet (serviceCreateMovie [] [] 0 mW).2.2 (movieKey "m1") =
      some (CacheVal.movieVal createdW) ∧
    cacheGet (serviceUpdateMovie dbW cHit 1 mW).2.2 (movieKey "m1") = none ∧
    cacheGet (serviceDeleteMovie dbW cHit "m1").2.2 (movieKey "m1") = none ∧
    cacheGet (serviceCreateMovie [] cSearch 0 mW).2.2 "search:a" = none := by
  refine ⟨?_, ?_, ?_, ?_⟩
  · exact ((write_paths_invalidate_cache [] [] 0 mW "m1").1 createdW _ _ rfl).1
  · exact ((write_paths_invalidate_cache dbW cHit 1 mW "m1").2.1 _ _ _ rfl).1
  · exact ((write_paths_invalidate_cache dbW cHit 1 mW "m1").2.2 _ _ rfl).1
  · exact ((write_paths_invalidate_cache [] cSearch 0 mW "m1").1 createdW _ _ rfl).2
      "search:a" rfl

/-- C4 counterexample: the valid payload `mNone` (explicit `None` cast) does not
round-trip equal on all non-timestamp fields: `create` then `getById` returns a
record whose `cast` is the empty list (`db_movie.cast or []` in
`_model_to_movie`), not the payload's `None`. -/
theorem create_roundtrip_none_cast_counterexample :
    validMovie mNone = true ∧
    create_movie [] 0 mNone = some (movieOfRow (mkRow mNone 0), [mkRow mNone 0]) ∧
    get_movie_by_id [mkRow mNone 0] "m1" = some (movieOfRow (mkRow mNone 0)) ∧
    (movieOfRow (mkRow mNone 0)).cast ≠ mNone.cast ∧
    (movieOfRow (mkRow mNone 0)).payload ≠ mNone.payload := by
  refine ⟨by decide, rfl, by decide, by decide, by decide⟩

/-- C4 (amended): for every valid Movie payload, `create` followed by `getById`
returns a record equal to the payload on all fields except the system timestamps
and up to normalization of the optional collections (a `None` cast is returned as
the empty list and a `None` provider metadata as the empty mapping); the system
timestamps are set by the store — the caller's values are ignored — are non-null
and satisfy `updated_at >= created_at`. -/
theorem create_then_get_roundtrip (db : DB) (now : Nat) (m : Movie)
    (hv : validMovie m = true)
    (hid : db.any (fun r => r.id == m.id) = false)
    (himdb : imdbConflict db m.id m.imdb_id = false) :
    ∃ created db2, create_movie db now m = some (created, db2) ∧
      get_movie_by_id db2 m.id = some created ∧
      created.payload = (normalizeMovie m).payload ∧
      created.created_at = some now ∧ created.updated_at = some now ∧
      (∃ tc tu, created.created_at = some tc ∧ created.updated_at = some tu ∧ tc ≤ tu) ∧
      (∀ ts1 ts2, create_movie db now
          { m with created_at := ts1, updated_at := ts2 } = create_movie db now m) := by
  refine ⟨movieOfRow (mkRow m now), db ++ [mkRow m now], ?_, ?_, rfl, rfl, rfl,
    ⟨now, now, rfl, rfl, le_refl now⟩, fun ts1 ts2 => rfl⟩
  · unfold create_movie
    rw [if_neg]
    simp [hid, himdb]
  · unfold get_movie_by_id scalarOne
    have hfil : db.filter (fun r => r.id == m.id) = [] := by
      rw [List.filter_eq_nil_iff]
      intro a ha
      exact List.any_eq_false.mp hid a ha
    rw [List.filter_append, hfil]
    have hrow : List.filter (fun r => r.id == m.id) [mkRow m now] = [mkRow m now] := by
      simp [List.filter_cons, mkRow]
    rw [List.nil_append, hrow]
    rfl

/-- Witness for C4: `mW` against the empty store at time 5. -/
theorem create_then_get_roundtrip_witness :
    ∃ created db2, create_movie [] 5 mW = some (created, db2) ∧
      get_movie_by_id db2 mW.id = some created ∧
      created.payload = (normalizeMovie mW).payload ∧
      created.created_at = some 5 ∧ created.updated_at = some 5 ∧
      (∃ tc tu, created.created_at = some tc ∧ created.updated_at = some tu ∧ tc ≤ tu) ∧
      (∀ ts1 ts2, create_movie [] 5
          { mW with created_at := ts1, updated_at := ts2 } = create_movie [] 5 mW) :=
  create_then_get_roundtrip [] 5 mW (by decide) rfl rfl

/-- One ingestion write against a store whose primary-key invariant holds for the
record's id and whose `imdb_id` uniqueness is not violated: the upsert succeeds,
after it exactly one row carries the id and its non-system columns are the
written payload, the store grows by one row exactly when the id was absent, and
no new `imdb_id` conflict for this id appears. -/
lemma processMovieData_write (db : DB) (now : Nat) (m : Movie)
    (hu : (db.filter (fun r => r.id == m.id)).length ≤ 1)
    (hconf : imdbConflict db m.id m.imdb_id = false) :
    (processMovieData db now m).1 = true ∧
    ((processMovieData db now m).2.filter (fun r => r.id == m.id)).map MovieRow.payload
      = [m.payload] ∧
    (processMovieData db now m).2.length =
      (if db.any (fun r => r.id == m.id) then db.length else db.length + 1) ∧
    (∀ imdb2, imdbConflict db m.id imdb2 = false →
      imdbConflict (processMovieData db now m).2 m.id imdb2 = false) := by
  cases hfil : db.filter (fun r => r.id == m.id) with
  | nil =>
    have hforall := List.filter_eq_nil_iff.mp hfil
    have hany : db.any (fun r => r.id == m.id) = false :=
      List.any_eq_false.mpr hforall
    have hget : get_movie_by_id db m.id = none := by
      unfold get_movie_by_id scalarOne
      rw [hfil]
      rfl
    have hcre : create_movie db now m =
        some (movieOfRow (mkRow m now), db ++ [mkRow m now]) := by
      unfold create_movie
      rw [if_neg]
      simp [hany, hconf]
    have hpd : processMovieData db now m = (true, db ++ [mkRow m now]) := by
      unfold processMovieData
      rw [hget, hcre]
    have hpd1 : (processMovieData db now m).1 = true := by rw [hpd]
    have hpd2 : (processMovieData db now m).2 = db ++ [mkRow m now] := by rw [hpd]
    have hrowid : ((mkRow m now).id == m.id) = true := by simp [mkRow]
    refine ⟨hpd1, ?_, ?_, ?_⟩
    · rw [hpd2, List.filter_append, hfil, List.nil_append]
      simp [List.filter_cons, hrowid]
      rfl
    · rw [hpd2, hany]
      simp
    · intro imdb2 h2
      cases imdb2 with
      | none => rfl
      | some s =>
        simp only [imdbConflict] at h2 ⊢
        rw [hpd2, List.any_append, h2]
        simp [mkRow]
  | cons r0 tail =>
    cases tail with
    | cons r1 t2 => rw [hfil] at hu; simp at hu
    | nil =>
    have hr0 := List.mem_filter.mp (hfil ▸ List.mem_singleton_self r0)
    have hr0id : r0.id = m.id := by simpa using hr0.2
    have hscal : scalarOne db m.id = some r0 := by
      unfold scalarOne
      rw [hfil]
    have hget : get_movie_by_id db m.id = some (movieOfRow r0) := by
      unfold get_movie_by_id
      rw [hscal]
      rfl
    have hupd : update_movie db now m =
        some (movieOfRow (updateRow r0 m now),
          db.map (fun r => if r.id == m.id then updateRow r0 m now else r)) := by
      unfold update_movie
      simp only [hscal, hconf]
      rfl
    have hpd : processMovieData db now m =
        (true, db.map (fun r => if r.id == m.id then updateRow r0 m now else r)) := by
      unfold processMovieData
      rw [hget, hupd]
    have hpd1 : (processMovieData db now m).1 = true := by rw [hpd]
    have hpd2 : (processMovieData db now m).2 =
        db.map (fun r => if r.id == m.id then updateRow r0 m now else r) := by rw [hpd]
    have hrow2id : (updateRow r0 m now).id = m.id := hr0id
    have hpe : ∀ r ∈ db,
        ((if r.id == m.id then updateRow r0 m now else r).id == m.id) = (r.id == m.id) := by
      intro r _
      by_cases hr : (r.id == m.id) = true
      · rw [if_pos hr, hr]
        simp [hrow2id]
      · rw [if_neg hr]
    have hfilmap : (db.map (fun r => if r.id == m.id then updateRow r0 m now else r)).filter
        (fun r => r.id == m.id) = [updateRow r0 m now] := by
      rw [List.filter_map]
      have hcong : List.filter
          ((fun r => r.id == m.id) ∘ fun r => if r.id == m.id then updateRow r0 m now else r)
          db = List.filter (fun r => r.id == m.id) db := by
        refine List.filter_congr ?_
        intro r hr
        simp only [Function.comp_apply]
        exact hpe r hr
      rw [hcong, hfil]
      simp only [List.map_cons, List.map_nil]
      rw [if_pos hr0.2]
    refine ⟨hpd1, ?_, ?_, ?_⟩
    · rw [hpd2, hfilmap]
      simp [updateRow, MovieRow.payload, Movie.payload, hr0id]
    · have hany : db.any (fun r => r.id == m.id) = true :=
        List.any_eq_true.mpr ⟨r0, hr0.1, hr0.2⟩
      rw [hpd2, hany]
      simp
    · intro imdb2 h2
      cases imdb2 with
      | none => rfl
      | some s =>
        simp only [imdbConflict] at h2 ⊢
        rw [hpd2, List.any_map]
        rw [List.any_eq_false]
        intro x hx
        by_cases hr : (x.id == m.id) = true
        · have hbne : ((updateRow r0 m now).id != m.id) = false := by
            simp [hrow2id]
          simp only [Function.comp_apply, hr, if_true, if_pos]
          simp [hbne]
        · simp only [Function.comp_apply, hr, Bool.false_eq_true, if_false]
          exact List.any_eq_false.mp h2 x hx

/-- C6: ingestion of a validated record is an idempotent upsert keyed on id: the
first write succeeds (updating when the id exists, creating — one new row —
when it does not), and submitting a second object with the same id succeeds,
adds no row, and leaves exactly one stored record carrying the second write's
non-system field values (last-write-wins). -/
theorem ingestion_upsert_idempotent (db : DB) (now1 now2 : Nat) (m1 m2 : Movie)
    (hid : m2.id = m1.id)
    (hu : (db.filter (fun r => r.id == m1.id)).length ≤ 1)
    (h1 : imdbConflict db m1.id m1.imdb_id = false)
    (h2 : imdbConflict db m1.id m2.imdb_id = false) :
    (processMovieData db now1 m1).1 = true ∧
    (processMovieData (processMovieData db now1 m1).2 now2 m2).1 = true ∧
    ((processMovieData (processMovieData db now1 m1).2 now2 m2).2.filter
        (fun r => r.id == m2.id)).map MovieRow.payload = [m2.payload] ∧
    (processMovieData (processMovieData db now1 m1).2 now2 m2).2.length =
      (processMovieData db now1 m1).2.length ∧
    (processMovieData db now1 m1).2.length =
      (if db.any (fun r => r.id == m1.id) then db.length else db.length + 1) := by
  obtain ⟨w1, wf1, wl1, wc1⟩ := processMovieData_write db now1 m1 hu h1
  have hflen : ((processMovieData db now1 m1).2.filter
      (fun r => r.id == m1.id)).length = 1 := by
    have := congrArg List.length wf1
    simpa using this
  have hu2 : ((processMovieData db now1 m1).2.filter
      (fun r => r.id == m2.id)).length ≤ 1 := by
    rw [hid]
    omega
  have hc2 : imdbConflict (processMovieData db now1 m1).2 m2.id m2.imdb_id = false := by
    rw [hid]
    exact wc1 m2.imdb_id h2
  obtain ⟨w2, wf2, wl2, _⟩ :=
    processMovieData_write (processMovieData db now1 m1).2 now2 m2 hu2 hc2
  refine ⟨w1, w2, wf2, ?_, wl1⟩
  rw [wl2]
  have hany : (processMovieData db now1 m1).2.any (fun r => r.id == m2.id) = true := by
    rw [hid, List.any_eq_true]
    cases hf : (processMovieData db now1 m1).2.filter (fun r => r.id == m1.id) with
    | nil => rw [hf] at hflen; simp at hflen
    | cons a t =>
      have ha := List.mem_filter.mp (hf ▸ List.mem_cons_self a t)
      exact ⟨a, ha.1, ha.2⟩
  rw [hany]
  simp

/-- Witness for C6: `mW` then `mW2` (same id, new title) against the empty store. -/
theorem ingestion_upsert_idempotent_witness :
    (processMovieData [] 0 mW).1 = true ∧
    (processMovieData (processMovieData [] 0 mW).2 1 mW2).1 = true ∧
    ((processMovieData (processMovieData [] 0 mW).2 1 mW2).2.filter
        (fun r => r.id == mW2.id)).map MovieRow.payload = [mW2.payload] ∧
    (processMovieData (processMovieData [] 0 mW).2 1 mW2).2.length =
      (processMovieData [] 0 mW).2.length ∧
    (processMovieData [] 0 mW).2.length =
      (if ([] : DB).any (fun r => r.id == mW.id) then ([] : DB).length
       else ([] : DB).length + 1) :=
  ingestion_upsert_idempotent [] 0 1 mW mW2 rfl (by decide) rfl rfl

lemma charListLE_total : ∀ as bs, (charListLE as bs || charListLE bs as) = true
  | [], bs => by cases bs <;> simp [charListLE]
  | _ :: _, [] => by simp [charListLE]
  | a :: as, b :: bs => by
    by_cases h : a = b
    · subst h
      simpa [charListLE] using charListLE_total as bs
    · have h2 : ¬ b = a := fun e => h e.symm
      simp only [charListLE, if_neg h, if_neg h2, Bool.or_eq_true, decide_eq_true_eq]
      rcases lt_trichotomy a b with hlt | heq | hgt
      · exact Or.inl hlt
      · exact absurd heq h
      · exact Or.inr hgt

lemma charListLE_trans :
    ∀ as bs cs, charListLE as bs = true → charListLE bs cs = true →
      charListLE as cs = true
  | [], bs, cs, _, _ => by simp [charListLE]
  | _ :: _, [], _, h1, _ => by simp [charListLE] at h1
  | _ :: _, _ :: _, [], _, h2 => by simp [charListLE] at h2
  | a :: as, b :: bs, c :: cs, h1, h2 => by
    by_cases hab : a = b <;> by_cases hbc : b = c
    · subst hab; subst hbc
      simp only [charListLE, if_pos rfl] at h1 h2 ⊢
      exact charListLE_trans as bs cs h1 h2
    · subst hab
      simp only [charListLE, if_pos rfl, if_neg hbc] at h2 ⊢
      exact h2
    · subst hbc
      simp only [charListLE, if_neg hab] at h1 ⊢
      exact h1
    · simp only [charListLE, if_neg hab, if_neg hbc, decide_eq_true_eq] at h1 h2
      have hac : a < c := lt_trans h1 h2
      have hne : ¬ a = c := ne_of_lt hac
      simp only [charListLE, if_neg hne, decide_eq_true_eq]
      exact hac

lemma searchLE_total (a b : MovieRow) : searchLE a b || searchLE b a := by
  simp only [searchLE, strLE, Bool.or_eq_true, Bool.and_eq_true, decide_eq_true_eq,
    beq_iff_eq]
  rcases lt_trichotomy a.year b.year with h | h | h
  · exact Or.inr (Or.inl h)
  · rcases Bool.or_eq_true .. |>.mp (charListLE_total a.title.data b.title.data)
      with ht | ht
    · exact Or.inl (Or.inr ⟨h, ht⟩)
    · exact Or.inr (Or.inr ⟨h.symm, ht⟩)
  · exact Or.inl (Or.inl h)

lemma searchLE_trans (a b c : MovieRow) (h1 : searchLE a b) (h2 : searchLE b c) :
    searchLE a c := by
  simp only [searchLE, strLE, Bool.or_eq_true, Bool.and_eq_true, decide_eq_true_eq,
    beq_iff_eq] at h1 h2 ⊢
  rcases h1 with h1 | ⟨h1e, h1t⟩ <;> rcases h2 with h2 | ⟨h2e, h2t⟩
  · exact Or.inl (by omega)
  · exact Or.inl (by omega)
  · exact Or.inl (by omega)
  · exact Or.inr ⟨by omega, charListLE_trans _ _ _ h1t h2t⟩

/-- C7: every search returns at most `limit` records, ordered by descending year
then ascending (lexicographic) title, and repeating the same query with the same
filters and no intervening writes returns the records in exactly the same order. -/
theorem search_order_limit_deterministic (db : DB) (f : SearchFilters)
    (limit offset : Nat) :
    (search_movies db f limit offset).1.length ≤ limit ∧
    List.Pairwise
      (fun a b : Movie =>
        b.year < a.year ∨ (a.year = b.year ∧ strLE a.title b.title = true))
      (search_movies db f limit offset).1 ∧
    search_movies db f limit offset = search_movies db f limit offset := by
  have hpage : (search_movies db f limit offset).1 =
      ((((db.filter (matchesFilters f)).mergeSort searchLE).drop offset).take
        limit).map movieOfRow := rfl
  refine ⟨?_, ?_, rfl⟩
  · rw [hpage, List.length_map]
    exact List.length_take_le _ _
  · rw [hpage, List.pairwise_map]
    have hs := List.sorted_mergeSort searchLE_trans searchLE_total
      (db.filter (matchesFilters f))
    refine List.Pairwise.imp ?_ (List.Pairwise.take (List.Pairwise.drop hs))
    intro a b hab
    simp only [searchLE, Bool.or_eq_true, Bool.and_eq_true, decide_eq_true_eq,
      beq_iff_eq] at hab
    exact hab

/-- C8: `totalMatching` equals the number of records matching the conjunctive
filters before pagination, independent of `limit` and `offset`, computed over the
same filter predicate as the page; against a store containing exactly two 1994
titles, `year=1994&limit=1` returns `total = 2` with one data record. -/
theorem search_total_is_prepagination_count (db : DB) (f : SearchFilters)
    (l o l2 o2 : Nat) :
    (search_movies db f l o).2 = (db.filter (matchesFilters f)).length ∧
    (search_movies db f l o).2 = (search_movies db f l2 o2).2 ∧
    (search_movies dbY fY 1 0).2 = 2 ∧
    (search_movies dbY fY 1 0).1.length = 1 := by
  refine ⟨rfl, rfl, by decide, ?_⟩
  have hpage : (search_movies dbY fY 1 0).1 =
      ((((dbY.filter (matchesFilters fY)).mergeSort searchLE).drop 0).take 1).map
        movieOfRow := rfl
  rw [hpage, List.length_map, List.length_take, List.drop_zero, List.length_mergeSort]
  have hlen : (dbY.filter (matchesFilters fY)).length = 2 := by decide
  rw [hlen]
  rfl

lemma dedup_length_eq_iff_nodup [DecidableEq α] (l : List α) :
    (l.dedup.length == l.length) = true ↔ l.Nodup := by
  rw [beq_iff_eq]
  constructor
  · intro h
    have hsub : l.dedup.Sublist l := List.dedup_sublist l
    have heq : l.dedup = l := hsub.eq_of_length h
    rw [← heq]
    exact List.nodup_dedup l
  · intro h
    rw [List.dedup_eq_self.mpr h]

/-- C9: a payload with duplicate genres, or with cast entries whose names are
equal ignoring case, fails `Movie` validation, and the ingestion path rejects the
whole record before it reaches the store: `_process_s3_file` returns `False` and
the store is unchanged (no partial write). -/
theorem duplicate_genre_or_cast_rejected (m : Movie)
    (h : ¬ m.genre.Nodup ∨ ¬ ((m.cast.getD []).map (fun c => strLower c.name)).Nodup) :
    validMovie m = false ∧
    ∀ (w : S3World) (db : DB) (now : Nat) (b k : String),
      download w b k = some (some m) → processS3File w db now b k = (false, db) := by
  have hv : validMovie m = false := by
    rcases h with h | h
    · have hg : uniqueGenres m.genre = false := by
        unfold uniqueGenres
        cases hb : (m.genre.dedup.length == m.genre.length) with
        | true => exact absurd ((dedup_length_eq_iff_nodup m.genre).mp hb) h
        | false => rfl
      simp [validMovie, hg]
    · cases hc : m.cast with
      | none =>
        rw [hc] at h
        simp at h
      | some cl =>
        rw [hc] at h
        have huc : uniqueCastNames m.cast = false := by
          rw [hc]
          unfold uniqueCastNames
          cases hb : ((cl.map (fun c => strLower c.name)).dedup.length ==
              (cl.map (fun c => strLower c.name)).length) with
          | true =>
            exact absurd ((dedup_length_eq_iff_nodup _).mp hb) (by simpa using h)
          | false => exact hb
        simp [validMovie, huc]
  refine ⟨hv, fun w db now b k hd => ?_⟩
  unfold processS3File
  rw [hd]
  simp [hv]

/-- Witness for C9: the duplicate-genre payload and the case-duplicate-cast
payload are both rejected, and processing the stored duplicate-genre object
leaves the empty store empty. -/
theorem duplicate_genre_or_cast_rejected_witness :
    validMovie mDup = false ∧
    validMovie mCastDup = false ∧
    processS3File wDup [] 0 "b" "k2" = (false, []) :=
  ⟨(duplicate_genre_or_cast_rejected mDup (Or.inl (by decide))).1,
   (duplicate_genre_or_cast_rejected mCastDup (Or.inr (by decide))).1,
   (duplicate_genre_or_cast_rejected mDup (Or.inl (by decide))).2 wDup [] 0 "b" "k2" rfl⟩

end MovieStore
